import Mathlib

/-!
Shallow embedding of the Mini Event Management System API business-logic core
(`schemas.py`, `models.py`, `event_service.py`, `attendee_service.py`,
`events.py`), together with theorems settling the specification's claims.

Timestamps are modelled at minute granularity: a Python `datetime` is a
wall-clock value plus an optional fixed UTC offset (`tzinfo`), `none` meaning
timezone-naive.  Comparison of timezone-aware datetimes in Python compares
absolute instants, which is `Timestamp.instant` here.  A `pytz` timezone is an
offset function of the absolute instant (covering DST-style zones).
-/

namespace EventAPI

/-- A Python `datetime`: wall-clock minutes plus optional UTC offset in
minutes (`tzinfo`); `none` models a timezone-naive value. -/
structure Timestamp where
  wall : Int
  tz : Option Int
deriving DecidableEq, Repr

/-- The absolute instant (UTC minutes) of a datetime.  Python compares
timezone-aware datetimes by this value.  Naive values are only compared
among themselves by `wall`; the `getD 0` branch is never reached by the
services, which receive validated (aware) data. -/
def Timestamp.instant (t : Timestamp) : Int :=
  t.wall - t.tz.getD 0

/-- A `pytz` timezone: UTC offset (minutes) as a function of the absolute
instant, so DST transitions of real IANA zones are covered. -/
structure TimeZone where
  offsetAt : Int → Int

/-- `pytz.utc`. -/
def utcZone : TimeZone := ⟨fun _ => 0⟩

/-- The fixed offset `pytz.timezone("Asia/Kolkata")` attaches on modern
dates: +05:30, i.e. 330 minutes. -/
def istOffset : Int := 330

/-- `datetime.astimezone(target_tz)`: same absolute instant re-expressed in
the target zone's offset at that instant. -/
def Timestamp.astimezone (t : Timestamp) (z : TimeZone) : Timestamp :=
  { wall := t.instant + z.offsetAt t.instant, tz := some (z.offsetAt t.instant) }

/-- `schemas.EventBase` / `EventCreate` request body. -/
structure EventCreate where
  name : String
  location : String
  start_time : Timestamp
  end_time : Timestamp
  max_capacity : Int
deriving DecidableEq, Repr

/-- `schemas.EventBase.ensure_timezone_awareness` (a `pre` validator on
`start_time` and `end_time`): a naive value is localized to Asia/Kolkata
(wall clock kept, IST offset attached, per `pytz.localize`); an aware value
passes through unchanged. -/
def ensure_timezone_awareness (v : Timestamp) : Timestamp :=
  match v.tz with
  | none => { wall := v.wall, tz := some istOffset }
  | some _ => v

/-- Pydantic validation of an `EventCreate` body: both timestamp validators
run, then `end_time_must_be_after_start_time` compares the transformed
values (aware-datetime comparison, i.e. by instant) and raises when
`end_time <= start_time`.  No validator constrains `max_capacity`. -/
def validateEventCreate (e : EventCreate) : Except String EventCreate :=
  let s := ensure_timezone_awareness e.start_time
  let en := ensure_timezone_awareness e.end_time
  if en.instant ≤ s.instant then
    .error "End time must be after start time"
  else
    .ok { e with start_time := s, end_time := en }

/-- `models.Event` row. -/
structure Event where
  id : Nat
  name : String
  location : String
  start_time : Timestamp
  end_time : Timestamp
  max_capacity : Int
deriving DecidableEq, Repr

/-- `models.Attendee` row. -/
structure Attendee where
  id : Nat
  name : String
  email : String
  event_id : Nat
deriving DecidableEq, Repr

/-- The relational store: the two tables plus autoincrement counters. -/
structure DB where
  events : List Event
  attendees : List Attendee
  next_event_id : Nat
  next_attendee_id : Nat
deriving DecidableEq, Repr

/-- A store with empty tables. -/
def emptyDB : DB := { events := [], attendees := [], next_event_id := 1, next_attendee_id := 1 }

/-- `select(Event).where(Event.id == event_id)` … `.first()`. -/
def findEvent (db : DB) (event_id : Nat) : Option Event :=
  db.events.find? (fun e => e.id == event_id)

/-- `select(func.count(Attendee.id)).where(Attendee.event_id == event_id)`. -/
def countFor (db : DB) (event_id : Nat) : Nat :=
  (db.attendees.filter (fun a => a.event_id == event_id)).length

/-- The error kinds the handlers raise (spec taxonomy; `StorageFailure` is an
uncaught storage-layer exception such as an `IntegrityError`). -/
inductive RegError where
  | NotFound
  | CapacityExceeded
  | DuplicateRegistration
  | StorageFailure
deriving DecidableEq, Repr

/-- `event_service.EventService.create_event`: converts the (validated)
timestamps to UTC with `astimezone(pytz.utc)` and inserts the row, returning
it with its generated id. -/
def create_event (db : DB) (event_data : EventCreate) : DB × Event :=
  let utc_start_time := event_data.start_time.astimezone utcZone
  let utc_end_time := event_data.end_time.astimezone utcZone
  let db_event : Event :=
    { id := db.next_event_id
      name := event_data.name
      location := event_data.location
      start_time := utc_start_time
      end_time := utc_end_time
      max_capacity := event_data.max_capacity }
  ({ db with events := db.events ++ [db_event], next_event_id := db.next_event_id + 1 },
   db_event)

/-- The `POST /events` path: FastAPI runs the pydantic validation of the
body, then the handler calls `create_event`.  A validation error is a 422
before any persistence call. -/
def create_event_route (db : DB) (raw : EventCreate) : Except String (DB × Event) :=
  (validateEventCreate raw).map (fun validated => create_event db validated)

/-- The `ORDER BY Attendee.id` relation. -/
def leById (a b : Attendee) : Prop := a.id ≤ b.id

instance : DecidableRel leById := fun a b => Nat.decLe a.id b.id

instance : IsTotal Attendee leById := ⟨fun a b => Nat.le_total a.id b.id⟩

instance : IsTrans Attendee leById := ⟨fun _ _ _ => Nat.le_trans⟩

/-- The `ORDER BY Event.start_time` relation (stored timestamps are UTC, so
SQL compares the absolute instants). -/
def leByStart (a b : Event) : Prop := a.start_time.instant ≤ b.start_time.instant

instance : DecidableRel leByStart := fun a b => Int.decLe a.start_time.instant b.start_time.instant

/-- `event_service.EventService.get_events`: events whose `end_time` is
strictly after now (UTC), ordered by `start_time`, with offset `skip` and
limit `limit`.  Stored timestamps are UTC, so the SQL comparison and ordering
are by absolute instant. -/
def get_events (db : DB) (now_utc : Int) (skip limit : Nat) : List Event :=
  ((((db.events.filter (fun e => now_utc < e.end_time.instant)).insertionSort
      leByStart).drop skip).take limit)

/-- `attendee_service.AttendeeService.register_attendee`.  The pre-checks
(event exists, capacity, duplicate) read the state `db`; `racer` holds rows
committed by concurrent registrations between those reads and this request's
commit (§5 of the spec), so the storage layer's uniqueness check at commit
time runs against `db.attendees ++ racer`.  The code wraps no handler around
the commit, so a constraint violation there is the uncaught storage fault
`StorageFailure`. -/
def register_attendee (db : DB) (racer : List Attendee) (event_id : Nat)
    (name email : String) : Except RegError (DB × Attendee) :=
  match findEvent db event_id with
  | none => .error .NotFound
  | some event =>
    if (countFor db event_id : Int) ≥ event.max_capacity then
      .error .CapacityExceeded
    else
      match db.attendees.find? (fun a => a.event_id == event_id && a.email == email) with
      | some _ => .error .DuplicateRegistration
      | none =>
        let committed := db.attendees ++ racer
        let db_attendee : Attendee :=
          { id := db.next_attendee_id, name := name, email := email, event_id := event_id }
        if committed.any (fun b => b.event_id == event_id && b.email == email) then
          .error .StorageFailure
        else
          .ok ({ db with attendees := committed ++ [db_attendee],
                         next_attendee_id := db.next_attendee_id + 1 },
               db_attendee)

/-- `attendee_service.AttendeeService.get_attendees_for_event` response
shape (`schemas.PaginatedAttendeesResponse`). -/
structure PaginatedAttendeesResponse where
  total : Nat
  page : Int
  size : Int
  pages : Nat
  items : List Attendee
deriving DecidableEq, Repr

/-- `attendee_service.AttendeeService.get_attendees_for_event`: clamps
`page` and `size`, checks the event exists, then returns the page of
attendees of the event ordered by `Attendee.id` with `offset = (page-1)*size`,
the total count, and `pages = (total + size - 1) // size`. -/
def get_attendees_for_event (db : DB) (event_id : Nat) (page size : Int) :
    Except RegError PaginatedAttendeesResponse :=
  let page := if page < 1 then 1 else page
  let size := if size < 1 then 10 else size
  let offset := (page - 1) * size
  match findEvent db event_id with
  | none => .error .NotFound
  | some _ =>
    let total_attendees := countFor db event_id
    let attendees :=
      ((((db.attendees.filter (fun a => a.event_id == event_id)).insertionSort
          leById).drop offset.toNat).take size.toNat)
    let total_pages := (total_attendees + size.toNat - 1) / size.toNat
    .ok { total := total_attendees, page := page, size := size, pages := total_pages,
          items := attendees }

/-- Registering a list of (name, email) pairs one after the other against
one event, stopping at the first failure (sequential execution, no racer). -/
def seqRegister (event_id : Nat) : DB → List (String × String) → Option DB
  | db, [] => some db
  | db, (n, e) :: rest =>
    match register_attendee db [] event_id n e with
    | .ok (db', _) => seqRegister event_id db' rest
    | .error _ => none

/-! ### C1: handling of timezone-naive timestamps in event creation -/

/-- An event-creation body whose two timestamps carry no timezone information. -/
def naiveInput : EventCreate :=
  { name := "E", location := "L",
    start_time := { wall := 0, tz := none },
    end_time := { wall := 60, tz := none },
    max_capacity := 10 }

/-- C1: the claim says every input whose `start_time` or `end_time` is
timezone-naive fails validation.  It does not: `naiveInput` is naive in both
fields, yet `validateEventCreate` accepts it, localizing both timestamps to
Asia/Kolkata (+05:30). -/
theorem C1_counterexample :
    naiveInput.start_time.tz = none ∧ naiveInput.end_time.tz = none ∧
    validateEventCreate naiveInput =
      .ok { naiveInput with
            start_time := { wall := 0, tz := some istOffset },
            end_time := { wall := 60, tz := some istOffset } } := by
  exact ⟨rfl, rfl, rfl⟩

/-- C1 (amended): a timezone-naive timestamp is not rejected: the validator
localizes it to Asia/Kolkata (+05:30), keeping the wall-clock value, and
validation proceeds (succeeding whenever the naive wall-clock end is after
the start). -/
theorem C1_naive_localized_not_rejected (e : EventCreate)
    (hs : e.start_time.tz = none) (he : e.end_time.tz = none)
    (hlt : e.start_time.wall < e.end_time.wall) :
    validateEventCreate e =
      .ok { e with
            start_time := { wall := e.start_time.wall, tz := some istOffset },
            end_time := { wall := e.end_time.wall, tz := some istOffset } } := by
  unfold validateEventCreate ensure_timezone_awareness
  rw [hs, he]
  simp only [Timestamp.instant, Option.getD_some]
  rw [if_neg (by omega)]

/-- Witness for `C1_naive_localized_not_rejected` at `naiveInput`. -/
theorem C1_witness :
    naiveInput.start_time.tz = none ∧ naiveInput.end_time.tz = none ∧
    naiveInput.start_time.wall < naiveInput.end_time.wall ∧
    validateEventCreate naiveInput =
      .ok { naiveInput with
            start_time := { wall := naiveInput.start_time.wall, tz := some istOffset },
            end_time := { wall := naiveInput.end_time.wall, tz := some istOffset } } :=
  ⟨rfl, rfl, by decide, C1_naive_localized_not_rejected naiveInput rfl rfl (by decide)⟩

/-! ### C2: validation of `max_capacity` -/

/-- An event-creation body with `max_capacity = 0` and otherwise valid
(timezone-aware, end after start) fields. -/
def zeroCapInput : EventCreate :=
  { name := "E", location := "L",
    start_time := { wall := 0, tz := some 0 },
    end_time := { wall := 60, tz := some 0 },
    max_capacity := 0 }

/-- C2: the claim says a non-positive `max_capacity` fails validation and no
such event is persisted.  It does not: `zeroCapInput` has `max_capacity = 0`,
yet the creation route succeeds and persists the event with capacity 0. -/
theorem C2_counterexample :
    zeroCapInput.max_capacity ≤ 0 ∧
    (create_event_route emptyDB zeroCapInput).map (fun p => p.2.max_capacity) = .ok 0 := by
  exact ⟨by decide, rfl⟩

/-- C2 (amended): no validator constrains `max_capacity`: an input with a
non-positive capacity passes validation whenever its timestamps do, and the
event is persisted with exactly that capacity. -/
theorem C2_no_capacity_validation (db : DB) (e : EventCreate)
    (hcap : e.max_capacity ≤ 0)
    (h : (ensure_timezone_awareness e.start_time).instant <
         (ensure_timezone_awareness e.end_time).instant) :
    (create_event_route db e).map (fun p => p.2.max_capacity) = .ok e.max_capacity := by
  unfold create_event_route validateEventCreate
  rw [if_neg (not_le.mpr h)]
  rfl

/-- Witness for `C2_no_capacity_validation` at `zeroCapInput` over the empty
store. -/
theorem C2_witness :
    zeroCapInput.max_capacity ≤ 0 ∧
    (ensure_timezone_awareness zeroCapInput.start_time).instant <
      (ensure_timezone_awareness zeroCapInput.end_time).instant ∧
    (create_event_route emptyDB zeroCapInput).map (fun p => p.2.max_capacity) =
      .ok zeroCapInput.max_capacity :=
  ⟨by decide, by decide, C2_no_capacity_validation emptyDB zeroCapInput (by decide) (by decide)⟩

/-! ### C3: storage-level constraint violations at insert time -/

/-- An event row with id 1 and capacity 5. -/
def c3ev : Event :=
  { id := 1, name := "E", location := "L",
    start_time := { wall := 0, tz := some 0 },
    end_time := { wall := 60, tz := some 0 },
    max_capacity := 5 }

/-- A store holding one event (id 1, capacity 5) and no attendees. -/
def c3db : DB :=
  { events := [c3ev], attendees := [], next_event_id := 2, next_attendee_id := 1 }

/-- A row committed by a concurrent registration between this request's
pre-checks and its commit, with the same `(event_id, email)` pair. -/
def c3racer : Attendee := { id := 7, name := "R", email := "x@y.z", event_id := 1 }

/-- C3: the claim says an insert failing on the `(event_id, email)`
uniqueness constraint is translated to a client error, never a
`StorageFailure`.  It is not: the pre-checks pass (event exists, capacity 5,
no duplicate row yet), a concurrent racer has committed the same pair, and
the commit's constraint violation surfaces as `StorageFailure`. -/
theorem C3_counterexample :
    register_attendee c3db [c3racer] 1 "A" "x@y.z" = .error .StorageFailure := by
  rfl

/-- C3 (amended): the code wraps no handler around the commit, so whenever
the pre-checks pass but a racer has committed the same `(event_id, email)`
pair, the storage layer's uniqueness violation surfaces as the raw
`StorageFailure`; only a duplicate caught by the pre-check yields
`DuplicateRegistration`. -/
theorem C3_race_uncaught (db : DB) (racer : List Attendee) (event_id : Nat)
    (name email : String) (ev : Event)
    (hev : findEvent db event_id = some ev)
    (hcap : (countFor db event_id : Int) < ev.max_capacity)
    (hdup : db.attendees.find? (fun a => a.event_id == event_id && a.email == email) = none)
    (hr : (db.attendees ++ racer).any
            (fun b => b.event_id == event_id && b.email == email) = true) :
    register_attendee db racer event_id name email = .error .StorageFailure := by
  unfold register_attendee
  rw [hev]
  simp only [hdup, hr, if_true, if_neg (not_le.mpr hcap)]

/-- Witness for `C3_race_uncaught` at the concrete race above. -/
theorem C3_witness :
    findEvent c3db 1 = some c3ev ∧
    ((countFor c3db 1 : Int) < c3ev.max_capacity) ∧
    c3db.attendees.find? (fun a => a.event_id == 1 && a.email == "x@y.z") = none ∧
    (c3db.attendees ++ [c3racer]).any (fun b => b.event_id == 1 && b.email == "x@y.z") = true ∧
    register_attendee c3db [c3racer] 1 "A" "x@y.z" = .error .StorageFailure :=
  ⟨rfl, by decide, rfl, by decide,
   C3_race_uncaught c3db [c3racer] 1 "A" "x@y.z" c3ev rfl (by decide) rfl (by decide)⟩

/-! ### Inversion lemmas for successful registrations -/

/-- Inverting a successful `register_attendee`: the returned row, the state
change, and the facts the pre-checks established. -/
theorem register_ok_inversion (db db' : DB) (racer : List Attendee) (eid : Nat)
    (nm em : String) (a : Attendee)
    (h : register_attendee db racer eid nm em = .ok (db', a)) :
    a = { id := db.next_attendee_id, name := nm, email := em, event_id := eid } ∧
    db'.events = db.events ∧
    db'.attendees = db.attendees ++ racer ++ [a] ∧
    db'.next_event_id = db.next_event_id ∧
    db'.next_attendee_id = db.next_attendee_id + 1 ∧
    db.attendees.find? (fun x => x.event_id == eid && x.email == em) = none ∧
    ∃ ev, findEvent db eid = some ev ∧ (countFor db eid : Int) < ev.max_capacity := by
  unfold register_attendee at h
  split at h
  · exact absurd h (by simp)
  next ev hev =>
    split at h
    · exact absurd h (by simp)
    next hcap =>
      split at h
      · exact absurd h (by simp)
      next hdup =>
        dsimp only at h
        split at h
        · exact absurd h (by simp)
        next hcom =>
          simp only [Except.ok.injEq, Prod.mk.injEq] at h
          obtain ⟨hdb, hab⟩ := h
          subst hab
          subst hdb
          exact ⟨rfl, rfl, rfl, rfl, rfl, hdup, ev, hev, lt_of_not_ge hcap⟩

/-- A successful sequential registration (no racer) increments the event's
attendee count by exactly one. -/
theorem countFor_register_ok (db db' : DB) (eid : Nat) (nm em : String) (a : Attendee)
    (h : register_attendee db [] eid nm em = .ok (db', a)) :
    countFor db' eid = countFor db eid + 1 := by
  obtain ⟨ha, -, hatt, -, -, -, -⟩ := register_ok_inversion db db' [] eid nm em a h
  subst ha
  simp [countFor, hatt, List.filter_append]

/-- Inverting a successful sequence of registrations: the events table is
untouched and the attendee count grows by the number of registrations. -/
theorem seqRegister_inversion (eid : Nat) (regs : List (String × String)) :
    ∀ db db', seqRegister eid db regs = some db' →
      db'.events = db.events ∧ countFor db' eid = countFor db eid + regs.length := by
  induction regs with
  | nil =>
    intro db db' h
    simp only [seqRegister, Option.some.injEq] at h
    subst h
    simp
  | cons p rest ih =>
    intro db db' h
    obtain ⟨n, e⟩ := p
    unfold seqRegister at h
    split at h
    next db1 a hreg =>
      obtain ⟨he1, hc1⟩ := ih db1 db' h
      obtain ⟨-, he0, -, -, -, -, -⟩ := register_ok_inversion db db1 [] eid n e a hreg
      have hc0 := countFor_register_ok db db1 eid n e a hreg
      refine ⟨he1.trans he0, ?_⟩
      rw [hc1, hc0]
      simp [Nat.add_assoc, Nat.add_comm 1 rest.length]
    next => exact absurd h (by simp)

/-! ### C4: capacity is enforced under sequential execution -/

/-- C4: for an event of capacity `N`, after any `N` successful sequential
registrations the next attempt fails with `CapacityExceeded`; moreover the
count equals (hence does not exceed) `max_capacity` at that point, and a
successful sequential registration never takes the count beyond
`max_capacity`. -/
theorem C4_capacity_enforced (db db' : DB) (eid N : Nat) (ev : Event)
    (regs : List (String × String)) (nm em : String)
    (hev : findEvent db eid = some ev) (hcap : ev.max_capacity = (N : Int))
    (h0 : countFor db eid = 0) (hlen : regs.length = N)
    (hseq : seqRegister eid db regs = some db') :
    register_attendee db' [] eid nm em = .error .CapacityExceeded ∧
    (countFor db' eid : Int) ≤ ev.max_capacity ∧
    (∀ (dbX dbY : DB) (aY : Attendee) (nm2 em2 : String),
        findEvent dbX eid = some ev →
        register_attendee dbX [] eid nm2 em2 = .ok (dbY, aY) →
        (countFor dbY eid : Int) ≤ ev.max_capacity) := by
  obtain ⟨he, hc⟩ := seqRegister_inversion eid regs db db' hseq
  have hev' : findEvent db' eid = some ev := by
    unfold findEvent
    rw [he]
    exact hev
  have hcnt : countFor db' eid = N := by omega
  refine ⟨?_, ?_, ?_⟩
  · simp only [register_attendee, hev', hcnt, hcap, ge_iff_le, le_refl, if_true]
  · rw [hcnt, hcap]
  · intro dbX dbY aY nm2 em2 hevX hregX
    obtain ⟨-, -, -, -, -, -, evX, hevX', hcapX⟩ :=
      register_ok_inversion dbX dbY [] eid nm2 em2 aY hregX
    rw [hevX] at hevX'
    obtain rfl : ev = evX := by injection hevX'
    have := countFor_register_ok dbX dbY eid nm2 em2 aY hregX
    omega

/-- An event row with id 1 and capacity 1. -/
def c4ev : Event :=
  { id := 1, name := "E", location := "L",
    start_time := { wall := 0, tz := some 0 },
    end_time := { wall := 60, tz := some 0 },
    max_capacity := 1 }

/-- A store holding only `c4ev` and no attendees. -/
def c4db : DB :=
  { events := [c4ev], attendees := [], next_event_id := 2, next_attendee_id := 1 }

/-- The store after one successful registration against `c4ev`. -/
def c4db1 : DB :=
  { events := [c4ev],
    attendees := [{ id := 1, name := "A", email := "a@x.com", event_id := 1 }],
    next_event_id := 2, next_attendee_id := 2 }

/-- Witness for `C4_capacity_enforced` with `N = 1`. -/
theorem C4_witness :
    findEvent c4db 1 = some c4ev ∧ c4ev.max_capacity = ((1 : Nat) : Int) ∧
    countFor c4db 1 = 0 ∧
    ([("A", "a@x.com")] : List (String × String)).length = 1 ∧
    seqRegister 1 c4db [("A", "a@x.com")] = some c4db1 ∧
    register_attendee c4db1 [] 1 "B" "b@x.com" = .error .CapacityExceeded :=
  ⟨rfl, by decide, rfl, rfl, rfl,
   (C4_capacity_enforced c4db c4db1 1 1 c4ev [("A", "a@x.com")] "B" "b@x.com"
      rfl (by decide) rfl rfl rfl).1⟩

/-! ### C5: repeated registration of the same (event_id, email) pair -/

/-- An event row with id 1 and capacity 1 (for the counterexample). -/
def c5ev : Event :=
  { id := 1, name := "E", location := "L",
    start_time := { wall := 0, tz := some 0 },
    end_time := { wall := 60, tz := some 0 },
    max_capacity := 1 }

/-- A store holding only `c5ev` and no attendees. -/
def c5db : DB :=
  { events := [c5ev], attendees := [], next_event_id := 2, next_attendee_id := 1 }

/-- The store after registering `("A", "a@x.com")` against `c5ev`. -/
def c5db1 : DB :=
  { events := [c5ev],
    attendees := [{ id := 1, name := "A", email := "a@x.com", event_id := 1 }],
    next_event_id := 2, next_attendee_id := 2 }

/-- C5: the claim says the second registration of the same pair always fails
with `DuplicateRegistration`.  Not so: on an event of capacity 1 the first
registration fills the event and the second fails with `CapacityExceeded`
(the capacity check runs before the duplicate check). -/
theorem C5_counterexample :
    register_attendee c5db [] 1 "A" "a@x.com" =
      .ok (c5db1, { id := 1, name := "A", email := "a@x.com", event_id := 1 }) ∧
    register_attendee c5db1 [] 1 "A" "a@x.com" = .error .CapacityExceeded ∧
    RegError.CapacityExceeded ≠ RegError.DuplicateRegistration :=
  ⟨rfl, rfl, by decide⟩

/-- C5 (amended): after a successful registration, repeating the same
`(event_id, email)` pair always fails — with `CapacityExceeded` when the
first registration brought the event to full capacity (the capacity check
runs first), and with `DuplicateRegistration` otherwise. -/
theorem C5_second_attempt_fails (db db' : DB) (eid : Nat) (nm em : String) (a : Attendee)
    (ev : Event) (hev : findEvent db eid = some ev)
    (h1 : register_attendee db [] eid nm em = .ok (db', a)) :
    register_attendee db' [] eid nm em =
      .error (if (countFor db' eid : Int) ≥ ev.max_capacity then .CapacityExceeded
              else .DuplicateRegistration) := by
  obtain ⟨ha, he, hatt, -, -, hdup, -⟩ := register_ok_inversion db db' [] eid nm em a h1
  have hev' : findEvent db' eid = some ev := by
    unfold findEvent
    rw [he]
    exact hev
  by_cases hge : (countFor db' eid : Int) ≥ ev.max_capacity
  · simp only [register_attendee, hev', if_pos hge]
  · have hfind : db'.attendees.find? (fun x => x.event_id == eid && x.email == em) = some a := by
      subst ha
      simp [hatt, List.find?_append, hdup]
    simp only [register_attendee, hev', if_neg hge, hfind]

/-- An event row with id 1 and capacity 2 (for the witness). -/
def c5wev : Event :=
  { id := 1, name := "E", location := "L",
    start_time := { wall := 0, tz := some 0 },
    end_time := { wall := 60, tz := some 0 },
    max_capacity := 2 }

/-- A store holding only `c5wev` and no attendees. -/
def c5wdb : DB :=
  { events := [c5wev], attendees := [], next_event_id := 2, next_attendee_id := 1 }

/-- The store after registering `("A", "a@x.com")` against `c5wev`. -/
def c5wdb1 : DB :=
  { events := [c5wev],
    attendees := [{ id := 1, name := "A", email := "a@x.com", event_id := 1 }],
    next_event_id := 2, next_attendee_id := 2 }

/-- Witness for `C5_second_attempt_fails` on a capacity-2 event: below
capacity, the second attempt yields `DuplicateRegistration`. -/
theorem C5_witness :
    findEvent c5wdb 1 = some c5wev ∧
    register_attendee c5wdb [] 1 "A" "a@x.com" =
      .ok (c5wdb1, { id := 1, name := "A", email := "a@x.com", event_id := 1 }) ∧
    register_attendee c5wdb1 [] 1 "A" "a@x.com" =
      .error (if (countFor c5wdb1 1 : Int) ≥ c5wev.max_capacity then .CapacityExceeded
              else .DuplicateRegistration) :=
  ⟨rfl, rfl,
   C5_second_attempt_fails c5wdb c5wdb1 1 "A" "a@x.com"
     { id := 1, name := "A", email := "a@x.com", event_id := 1 } c5wev rfl rfl⟩

/-! ### Helpers about timestamps and the creation route -/

/-- `astimezone` preserves the absolute instant. -/
theorem astimezone_instant (t : Timestamp) (z : TimeZone) :
    (t.astimezone z).instant = t.instant := by
  simp [Timestamp.astimezone, Timestamp.instant]

/-- A UTC-stored timestamp converted to any zone and back to UTC is
reproduced exactly. -/
theorem astimezone_utc_roundtrip (t : Timestamp) (z : TimeZone) :
    ((t.astimezone utcZone).astimezone z).astimezone utcZone = t.astimezone utcZone := by
  simp [Timestamp.astimezone, Timestamp.instant, utcZone]

/-- Inverting a successful `create_event_route`: the created row holds the
validated timestamps converted to UTC, and validation established
`start_time < end_time` (as instants). -/
theorem create_event_route_ok_shape (db db' : DB) (raw : EventCreate) (ev : Event)
    (h : create_event_route db raw = .ok (db', ev)) :
    ∃ v : EventCreate, validateEventCreate raw = .ok v ∧
      ev.start_time = v.start_time.astimezone utcZone ∧
      ev.end_time = v.end_time.astimezone utcZone ∧
      ev.max_capacity = v.max_capacity ∧
      v.start_time.instant < v.end_time.instant := by
  unfold create_event_route validateEventCreate at h
  dsimp only at h
  by_cases hcond : (ensure_timezone_awareness raw.end_time).instant ≤
      (ensure_timezone_awareness raw.start_time).instant
  · rw [if_pos hcond] at h
    exact absurd h (by simp [Except.map])
  · rw [if_neg hcond] at h
    simp only [Except.map, Except.ok.injEq] at h
    refine ⟨{ raw with start_time := ensure_timezone_awareness raw.start_time,
                       end_time := ensure_timezone_awareness raw.end_time },
            ?_, ?_, ?_, ?_, not_le.mp hcond⟩
    · unfold validateEventCreate
      dsimp only
      rw [if_neg hcond]
    · rw [show ev = (create_event db { raw with
            start_time := ensure_timezone_awareness raw.start_time,
            end_time := ensure_timezone_awareness raw.end_time }).2 from
          (congrArg Prod.snd h).symm]
      rfl
    · rw [show ev = (create_event db { raw with
            start_time := ensure_timezone_awareness raw.start_time,
            end_time := ensure_timezone_awareness raw.end_time }).2 from
          (congrArg Prod.snd h).symm]
      rfl
    · rw [show ev = (create_event db { raw with
            start_time := ensure_timezone_awareness raw.start_time,
            end_time := ensure_timezone_awareness raw.end_time }).2 from
          (congrArg Prod.snd h).symm]
      rfl

/-! ### C7: end_time must be after start_time -/

/-- C7: for timezone-aware timestamps with `end_time ≤ start_time` (as
instants, which is how Python compares aware datetimes), validation fails
before any persistence call; and every event the creation route persists has
`start_time < end_time`. -/
theorem C7_end_not_after_start_rejected (e : EventCreate)
    (hs : e.start_time.tz.isSome = true) (he : e.end_time.tz.isSome = true)
    (hle : e.end_time.instant ≤ e.start_time.instant) :
    validateEventCreate e = .error "End time must be after start time" ∧
    (∀ (db db' : DB) (raw : EventCreate) (ev : Event),
        create_event_route db raw = .ok (db', ev) →
        ev.start_time.instant < ev.end_time.instant) := by
  constructor
  · have hs' : ensure_timezone_awareness e.start_time = e.start_time := by
      unfold ensure_timezone_awareness
      cases hst : e.start_time.tz with
      | none => rw [hst] at hs; exact absurd hs (by simp)
      | some o => rfl
    have he' : ensure_timezone_awareness e.end_time = e.end_time := by
      unfold ensure_timezone_awareness
      cases het : e.end_time.tz with
      | none => rw [het] at he; exact absurd he (by simp)
      | some o => rfl
    unfold validateEventCreate
    rw [hs', he', if_pos hle]
  · intro db db' raw ev h
    obtain ⟨v, -, hst, het, -, hlt⟩ := create_event_route_ok_shape db db' raw ev h
    rw [hst, het, astimezone_instant, astimezone_instant]
    exact hlt

/-- An event-creation body, timezone-aware, whose end is before its start. -/
def backwardsInput : EventCreate :=
  { name := "E", location := "L",
    start_time := { wall := 60, tz := some 0 },
    end_time := { wall := 0, tz := some 0 },
    max_capacity := 10 }

/-- Witness for `C7_end_not_after_start_rejected` at `backwardsInput`. -/
theorem C7_witness :
    backwardsInput.start_time.tz.isSome = true ∧
    backwardsInput.end_time.tz.isSome = true ∧
    backwardsInput.end_time.instant ≤ backwardsInput.start_time.instant ∧
    validateEventCreate backwardsInput = .error "End time must be after start time" :=
  ⟨rfl, rfl, by decide,
   (C7_end_not_after_start_rejected backwardsInput rfl rfl (by decide)).1⟩

/-! ### C8: pagination parameter clamping -/

/-- C8: `page` below 1 is treated as 1, `size` below 1 as the default 10;
the returned `page` and `size` fields are the clamped values, and the items
window starts at offset `(page - 1) * size` computed from them. -/
theorem C8_pagination_clamping (db : DB) (eid : Nat) (page size : Int) (ev : Event)
    (hev : findEvent db eid = some ev) :
    ∃ r, get_attendees_for_event db eid page size = .ok r ∧
      r.page = (if page < 1 then 1 else page) ∧
      r.size = (if size < 1 then 10 else size) ∧
      r.items =
        ((((db.attendees.filter (fun a => a.event_id == eid)).insertionSort leById).drop
            ((r.page - 1) * r.size).toNat).take r.size.toNat) := by
  refine ⟨{ total := countFor db eid,
            page := if page < 1 then 1 else page,
            size := if size < 1 then 10 else size,
            pages := (countFor db eid + (if size < 1 then 10 else size).toNat - 1) /
                     (if size < 1 then 10 else size).toNat,
            items := ((((db.attendees.filter (fun a => a.event_id == eid)).insertionSort
                leById).drop (((if page < 1 then 1 else page) - 1) *
                  (if size < 1 then 10 else size)).toNat).take
                (if size < 1 then 10 else size).toNat) }, ?_, rfl, rfl, rfl⟩
  simp only [get_attendees_for_event, hev]

/-- A store with one event (id 1) and two attendees, for the C8 witness. -/
def c8db : DB :=
  { events := [{ id := 1, name := "E", location := "L",
                 start_time := { wall := 0, tz := some 0 },
                 end_time := { wall := 60, tz := some 0 },
                 max_capacity := 5 }],
    attendees := [{ id := 1, name := "A", email := "a@x.com", event_id := 1 },
                  { id := 2, name := "B", email := "b@x.com", event_id := 1 }],
    next_event_id := 2, next_attendee_id := 3 }

/-- Witness for `C8_pagination_clamping` at `page = 0`, `size = -5`. -/
theorem C8_witness :
    findEvent c8db 1 = some { id := 1, name := "E", location := "L",
                              start_time := { wall := 0, tz := some 0 },
                              end_time := { wall := 60, tz := some 0 },
                              max_capacity := 5 } ∧
    ∃ r, get_attendees_for_event c8db 1 0 (-5) = .ok r ∧
      r.page = (if (0 : Int) < 1 then 1 else 0) ∧
      r.size = (if (-5 : Int) < 1 then 10 else -5) ∧
      r.items =
        ((((c8db.attendees.filter (fun a => a.event_id == 1)).insertionSort leById).drop
            ((r.page - 1) * r.size).toNat).take r.size.toNat) :=
  ⟨rfl, C8_pagination_clamping c8db 1 0 (-5) _ rfl⟩

/-! ### C9: timezone conversion round-trip for stored events -/

/-- C9: the timestamps the creation route stores are UTC; converting either
to an arbitrary zone `z` (offset function of the instant, covering any IANA
zone) preserves the absolute instant, and converting the result back to UTC
reproduces the stored timestamp exactly. -/
theorem C9_timezone_roundtrip (db db' : DB) (raw : EventCreate) (ev : Event) (z : TimeZone)
    (h : create_event_route db raw = .ok (db', ev)) :
    (ev.start_time.astimezone z).instant = ev.start_time.instant ∧
    (ev.end_time.astimezone z).instant = ev.end_time.instant ∧
    (ev.start_time.astimezone z).astimezone utcZone = ev.start_time ∧
    (ev.end_time.astimezone z).astimezone utcZone = ev.end_time := by
  obtain ⟨v, -, hst, het, -, -⟩ := create_event_route_ok_shape db db' raw ev h
  refine ⟨astimezone_instant _ z, astimezone_instant _ z, ?_, ?_⟩
  · rw [hst]
    exact astimezone_utc_roundtrip v.start_time z
  · rw [het]
    exact astimezone_utc_roundtrip v.end_time z

/-- The Asia/Kolkata display zone as a fixed offset function. -/
def istZone : TimeZone := ⟨fun _ => istOffset⟩

/-- A valid, timezone-aware event-creation body. -/
def c9input : EventCreate :=
  { name := "E", location := "L",
    start_time := { wall := 0, tz := some 0 },
    end_time := { wall := 60, tz := some 0 },
    max_capacity := 5 }

/-- Witness for `C9_timezone_roundtrip` at a concrete creation and the
Asia/Kolkata zone. -/
theorem C9_witness :
    ∃ db' ev, create_event_route emptyDB c9input = .ok (db', ev) ∧
      ((ev.start_time.astimezone istZone).instant = ev.start_time.instant ∧
       (ev.end_time.astimezone istZone).instant = ev.end_time.instant ∧
       (ev.start_time.astimezone istZone).astimezone utcZone = ev.start_time ∧
       (ev.end_time.astimezone istZone).astimezone utcZone = ev.end_time) := by
  refine ⟨_, _, rfl, C9_timezone_roundtrip emptyDB _ c9input _ istZone rfl⟩

/-! ### C10: registration ignores the event's time window -/

/-- C10: `register_attendee` performs no check against the event's time
window: on an event whose `end_time` is already past, a fresh-email,
under-capacity registration still succeeds — while `get_events` (the
upcoming-events listing) no longer returns that event. -/
theorem C10_no_time_window_check (db : DB) (eid : Nat) (ev : Event) (nm em : String)
    (now : Int) (skip limit : Nat)
    (hev : findEvent db eid = some ev)
    (hpast : ev.end_time.instant ≤ now)
    (hcap : (countFor db eid : Int) < ev.max_capacity)
    (hfresh : db.attendees.find? (fun a => a.event_id == eid && a.email == em) = none) :
    register_attendee db [] eid nm em =
      .ok ({ db with
             attendees := db.attendees ++
               [{ id := db.next_attendee_id, name := nm, email := em, event_id := eid }],
             next_attendee_id := db.next_attendee_id + 1 },
           { id := db.next_attendee_id, name := nm, email := em, event_id := eid }) ∧
    ev ∉ get_events db now skip limit := by
  constructor
  · have hany : db.attendees.any (fun b => b.event_id == eid && b.email == em) = false := by
      rw [List.any_eq_false]
      simpa [List.find?_eq_none] using hfresh
    simp [register_attendee, hev, if_neg (not_le.mpr hcap), hfresh, hany]
  · intro hmem
    unfold get_events at hmem
    have hsub :
        ((((db.events.filter (fun e => now < e.end_time.instant)).insertionSort
            leByStart).drop skip).take limit).Sublist
          ((db.events.filter (fun e => now < e.end_time.instant)).insertionSort leByStart) :=
      (List.take_sublist _ _).trans (List.drop_sublist _ _)
    have hmem2 : ev ∈ db.events.filter (fun e => now < e.end_time.instant) :=
      (List.perm_insertionSort leByStart _).subset (hsub.subset hmem)
    have := (List.mem_filter.mp hmem2).2
    simp only [decide_eq_true_eq] at this
    omega

/-- A store with one already-finished event (id 1, window ending at 60). -/
def c10db : DB :=
  { events := [{ id := 1, name := "E", location := "L",
                 start_time := { wall := 0, tz := some 0 },
                 end_time := { wall := 60, tz := some 0 },
                 max_capacity := 5 }],
    attendees := [], next_event_id := 2, next_attendee_id := 1 }

/-- Witness for `C10_no_time_window_check`: at `now = 100` the event is
past, registration succeeds, and the event is absent from the listing. -/
theorem C10_witness :
    findEvent c10db 1 = some { id := 1, name := "E", location := "L",
                               start_time := { wall := 0, tz := some 0 },
                               end_time := { wall := 60, tz := some 0 },
                               max_capacity := 5 } ∧
    register_attendee c10db [] 1 "A" "a@x.com" =
      .ok ({ c10db with
             attendees := c10db.attendees ++
               [{ id := 1, name := "A", email := "a@x.com", event_id := 1 }],
             next_attendee_id := 2 },
           { id := 1, name := "A", email := "a@x.com", event_id := 1 }) ∧
    { id := 1, name := "E", location := "L",
      start_time := { wall := 0, tz := some 0 },
      end_time := { wall := 60, tz := some 0 },
      max_capacity := 5 } ∉ get_events c10db 100 0 10 := by
  have h := C10_no_time_window_check c10db 1
    { id := 1, name := "E", location := "L",
      start_time := { wall := 0, tz := some 0 },
      end_time := { wall := 60, tz := some 0 }, max_capacity := 5 }
    "A" "a@x.com" 100 0 10 rfl (by decide) (by decide) rfl
  exact ⟨rfl, h.1, h.2⟩

/-! ### C6: pagination of attendee listings -/

/-- The item list the attendee listing returns for a 1-based page number and
a size, empty when the call errors. -/
def pageItems (db : DB) (event_id : Nat) (size : Nat) (page : Nat) : List Attendee :=
  match get_attendees_for_event db event_id (page : Int) (size : Int) with
  | .ok r => r.items
  | .error _ => []

/-- Concatenating the `S`-sized chunks of a list reproduces the list, as
soon as `n` chunks cover its length. -/
theorem join_chunks {α : Type} (S : Nat) :
    ∀ (n : Nat) (l : List α), l.length ≤ n * S →
      ((List.range n).map (fun i => (l.drop (i * S)).take S)).flatten = l := by
  intro n
  induction n with
  | zero =>
    intro l hl
    simp only [Nat.zero_mul, Nat.le_zero] at hl
    simp [List.length_eq_zero.mp hl]
  | succ n ih =>
    intro l hl
    rw [List.range_succ_eq_map]
    simp only [List.map_cons, List.flatten_cons, List.map_map, Nat.zero_mul, List.drop_zero]
    have hmap : (List.range n).map ((fun i => (l.drop (i * S)).take S) ∘ Nat.succ) =
        (List.range n).map (fun i => ((l.drop S).drop (i * S)).take S) := by
      apply List.map_congr_left
      intro i _
      simp only [Function.comp_apply]
      rw [List.drop_drop]
      congr 2
      rw [Nat.succ_mul]
      omega
    rw [Nat.succ_mul] at hl
    rw [hmap, ih (l.drop S) (by simp only [List.length_drop]; omega)]
    exact List.take_append_drop S l

/-- The code's `(T + S - 1) / S` is exactly the ceiling of the rational
`T / S`. -/
theorem add_pred_div_eq_ceil (T S : Nat) (hS : 1 ≤ S) :
    ((T + S - 1) / S : Nat) = ⌈(T : ℚ) / (S : ℚ)⌉₊ := by
  have hS0 : (0 : ℚ) < (S : ℚ) := by exact_mod_cast hS
  apply le_antisymm
  · rw [Nat.div_le_iff_le_mul_add_pred (by omega)]
    have h1 : (T : ℚ) / S ≤ (⌈(T : ℚ) / S⌉₊ : ℚ) := Nat.le_ceil _
    rw [div_le_iff₀ hS0] at h1
    have h3 : T ≤ ⌈(T : ℚ) / S⌉₊ * S := by exact_mod_cast h1
    have h4 : T ≤ S * ⌈(T : ℚ) / S⌉₊ := by rw [Nat.mul_comm] at h3; exact h3
    omega
  · rw [Nat.ceil_le, div_le_iff₀ hS0]
    have hmod := Nat.div_add_mod (T + S - 1) S
    have hlt : (T + S - 1) % S < S := Nat.mod_lt _ (by omega)
    have h5 : T ≤ S * ((T + S - 1) / S) := by omega
    have h6 : T ≤ ((T + S - 1) / S) * S := by rw [Nat.mul_comm] at h5; exact h5
    exact_mod_cast h6

/-- Normal form of a successful attendee listing at an in-range page number
(`p ≥ 1`, `S ≥ 1`, both guaranteed by the route's query constraints). -/
theorem get_attendees_ok_form (db : DB) (eid : Nat) (S : Nat) (hS : 1 ≤ S)
    (p : Nat) (hp : 1 ≤ p) (ev : Event) (hev : findEvent db eid = some ev) :
    get_attendees_for_event db eid (p : Int) (S : Int) =
      .ok { total := countFor db eid,
            page := (p : Int),
            size := (S : Int),
            pages := (countFor db eid + S - 1) / S,
            items := ((((db.attendees.filter (fun a => a.event_id == eid)).insertionSort
                leById).drop ((p - 1) * S)).take S) } := by
  have h1 : ¬(p : Int) < 1 := by omega
  have h2 : ¬(S : Int) < 1 := by omega
  have h3 : (((p : Int) - 1) * (S : Int)).toNat = (p - 1) * S := by
    have hcast : ((p : Int) - 1) * (S : Int) = (((p - 1) * S : Nat) : Int) := by
      push_cast [hp]
      ring
    rw [hcast, Int.toNat_natCast]
  have h4 : ((S : Int)).toNat = S := Int.toNat_natCast S
  simp only [get_attendees_for_event, hev, if_neg h1, if_neg h2, h3, h4]

/-- C6: listing the attendees of an existing event with page size `S ≥ 1`
gives `pages = ⌈total / S⌉` (0 when there are none); the pages 1..pages
concatenate exactly to the event's attendees ordered by id ascending (a
permutation of the filtered table — no omission or duplication beyond the
table's own), and every page beyond `pages` is returned as `ok` with an
empty item list. -/
theorem C6_pagination (db : DB) (eid : Nat) (S : Nat) (hS : 1 ≤ S)
    (ev : Event) (hev : findEvent db eid = some ev) :
    ∃ r, get_attendees_for_event db eid 1 (S : Int) = .ok r ∧
      r.total = (db.attendees.filter (fun a => a.event_id == eid)).length ∧
      r.pages = r.total ⌈/⌉ S ∧
      r.pages = ⌈(r.total : ℚ) / (S : ℚ)⌉₊ ∧
      (r.total = 0 → r.pages = 0) ∧
      ((List.range r.pages).map (fun i => pageItems db eid S (i + 1))).flatten =
        (db.attendees.filter (fun a => a.event_id == eid)).insertionSort leById ∧
      (((List.range r.pages).map (fun i => pageItems db eid S (i + 1))).flatten).Perm
        (db.attendees.filter (fun a => a.event_id == eid)) ∧
      List.Sorted leById
        (((List.range r.pages).map (fun i => pageItems db eid S (i + 1))).flatten) ∧
      (db.attendees.Nodup →
        (((List.range r.pages).map (fun i => pageItems db eid S (i + 1))).flatten).Nodup) ∧
      (∀ p : Nat, r.pages < p →
        ∃ rp, get_attendees_for_event db eid (p : Int) (S : Int) = .ok rp ∧
          rp.items = []) := by
  have hform := get_attendees_ok_form db eid S hS 1 le_rfl ev hev
  set atts := db.attendees.filter (fun a => a.event_id == eid) with hatts
  set sorted := atts.insertionSort leById with hsorted
  set T := countFor db eid with hT
  set pages := (T + S - 1) / S with hpages
  have hTlen : T = atts.length := rfl
  have hslen : sorted.length = T := by
    rw [hTlen]
    exact (List.perm_insertionSort leById atts).length_eq
  have hcov : T ≤ pages * S := by
    have hmod := Nat.div_add_mod (T + S - 1) S
    have hlt : (T + S - 1) % S < S := Nat.mod_lt _ (by omega)
    have hle : T ≤ S * ((T + S - 1) / S) := by omega
    rw [hpages, Nat.mul_comm]
    exact hle
  have hpi : ∀ i : Nat, pageItems db eid S (i + 1) = (sorted.drop (i * S)).take S := by
    intro i
    unfold pageItems
    rw [show ((i + 1 : Nat) : Int) = ((i + 1 : Nat) : Int) from rfl,
        get_attendees_ok_form db eid S hS (i + 1) (by omega) ev hev]
    simp [hsorted, hatts]
  have hjoin : ((List.range pages).map (fun i => pageItems db eid S (i + 1))).flatten = sorted := by
    rw [List.map_congr_left (fun i _ => hpi i)]
    exact join_chunks S pages sorted (by rw [hslen]; exact hcov)
  refine ⟨_, hform, rfl, ?_, ?_, ?_, ?_, ?_, ?_, ?_, ?_⟩
  · exact (Nat.ceilDiv_eq_add_pred_div _ _).symm
  · exact add_pred_div_eq_ceil T S hS
  · intro h0
    have h0' : T = 0 := h0
    show (T + S - 1) / S = 0
    exact Nat.div_eq_of_lt (by omega)
  · exact hjoin
  · rw [hjoin]
    exact List.perm_insertionSort leById atts
  · rw [hjoin]
    exact List.sorted_insertionSort leById atts
  · intro hnd
    rw [hjoin]
    exact ((List.perm_insertionSort leById atts).nodup_iff).mpr (hnd.filter _)
  · intro p hp
    have hp' : pages < p := hp
    have hp1 : 1 ≤ p := by omega
    refine ⟨_, get_attendees_ok_form db eid S hS p hp1 ev hev, ?_⟩
    have hdrop : sorted.drop ((p - 1) * S) = [] := by
      apply List.drop_eq_nil_of_le
      rw [hslen]
      calc T ≤ pages * S := hcov
        _ ≤ (p - 1) * S := Nat.mul_le_mul_right S (by omega)
    simp only [← hsorted, ← hatts, hdrop, List.take_nil]

/-- An event row with id 1 and capacity 10 (for the C6 witness). -/
def c6ev : Event :=
  { id := 1, name := "E", location := "L",
    start_time := { wall := 0, tz := some 0 },
    end_time := { wall := 60, tz := some 0 },
    max_capacity := 10 }

/-- A store with `c6ev` and three registered attendees. -/
def c6db : DB :=
  { events := [c6ev],
    attendees := [{ id := 1, name := "A", email := "a@x.com", event_id := 1 },
                  { id := 2, name := "B", email := "b@x.com", event_id := 1 },
                  { id := 3, name := "C", email := "c@x.com", event_id := 1 }],
    next_event_id := 2, next_attendee_id := 4 }

/-- Witness for `C6_pagination`: three attendees, page size 2. -/
theorem C6_witness :
    (1 : Nat) ≤ 2 ∧ findEvent c6db 1 = some c6ev ∧
    ∃ r, get_attendees_for_event c6db 1 1 ((2 : Nat) : Int) = .ok r ∧
      r.pages = r.total ⌈/⌉ 2 :=
  ⟨by decide, rfl, by
    obtain ⟨r, h1, -, h2, -, -, -, -, -, -, -⟩ := C6_pagination c6db 1 2 (by decide) c6ev rfl
    exact ⟨r, h1, h2⟩⟩

end EventAPI
